import Mathlib

/-!
Shallow embedding of the darwix article-credibility analyzer
(src/utils/validators.py, src/core/orchestrator.py,
src/extraction/content_extractor.py, src/analysis/claim_extractor.py,
src/models/schemas.py) and proofs about the claims of its specification.

Python `float` values are modelled as exact rationals (ℚ); the numeric
literals involved (0.3, 0.6, 0.7, tenths in general) and the set sizes in
play are small enough that binary-float rounding never changes any of the
comparisons that appear in the code.  Python strings are modelled as Lean
strings over their character lists (all inputs of interest are ASCII).
-/

/-! ## Python string primitives -/

/-- Python `str.lower()` (ASCII). -/
def pyLower (s : String) : String := ⟨s.data.map Char.toLower⟩

/-- Worker for `pyWords`: split on whitespace runs, dropping empty
pieces; `cur` is the current word, reversed. -/
def wordsAux : List Char → List Char → List String
  | [], cur => if cur.isEmpty then [] else [⟨cur.reverse⟩]
  | c :: t, cur =>
    if c.isWhitespace then
      if cur.isEmpty then wordsAux t [] else ⟨cur.reverse⟩ :: wordsAux t []
    else
      wordsAux t (c :: cur)

/-- Python `str.split()` with no separator: split on whitespace runs,
dropping empty pieces. -/
def pyWords (s : String) : List String := wordsAux s.data []

/-- Worker for `joinWords`: `' '.join` on char lists. -/
def joinSp : List String → List Char
  | [] => []
  | [w] => w.data
  | w :: x :: t => w.data ++ ' ' :: joinSp (x :: t)

/-- Python `' '.join(s.split())`: whitespace normalization. -/
def joinWords (s : String) : String := ⟨joinSp (pyWords s)⟩

/-- Python `str.strip()`: drop leading and trailing whitespace. -/
def pyStrip (s : String) : String :=
  ⟨((s.data.dropWhile Char.isWhitespace).reverse.dropWhile
      Char.isWhitespace).reverse⟩

/-- `needle` occurs at the head of `hay`. -/
def matchesAt : List Char → List Char → Bool
  | _, [] => true
  | [], _ :: _ => false
  | c :: cs, d :: ds => c == d && matchesAt cs ds

/-- Python `needle in hay` (substring containment), on char lists. -/
def containsSeq : List Char → List Char → Bool
  | [], needle => needle.isEmpty
  | c :: t, needle => matchesAt (c :: t) needle || containsSeq t needle

/-- Python `needle in hay` on strings. -/
def pyIn (needle hay : String) : Bool := containsSeq hay.data needle.data

/-- Fuel-driven worker for `pyCount`; the fuel is the length of the
haystack, which always suffices because every step consumes at least one
character. -/
def countAux : Nat → List Char → List Char → Nat
  | 0, _, _ => 0
  | _ + 1, [], _ => 0
  | f + 1, c :: t, needle =>
    if matchesAt (c :: t) needle && !needle.isEmpty then
      countAux f (List.drop (needle.length - 1) t) needle + 1
    else
      countAux f t needle

/-- Python `hay.count(needle)`: non-overlapping occurrences, scanning left
to right (only ever called with a non-empty needle in this code base). -/
def pyCount (hay needle : String) : Nat :=
  countAux hay.data.length hay.data needle.data

/-- Fuel-driven worker for `pyReplace`. -/
def replaceAux : Nat → List Char → List Char → List Char → List Char
  | 0, hay, _, _ => hay
  | _ + 1, [], _, _ => []
  | f + 1, c :: t, needle, repl =>
    if matchesAt (c :: t) needle && !needle.isEmpty then
      repl ++ replaceAux f (List.drop (needle.length - 1) t) needle repl
    else
      c :: replaceAux f t needle repl

/-- Python `hay.replace(needle, repl)`: replace every non-overlapping
occurrence, leftmost first. -/
def pyReplace (hay needle repl : String) : String :=
  ⟨replaceAux hay.data.length hay.data needle.data repl.data⟩

/-- Case-insensitive variant of `matchesAt` (ASCII). -/
def matchesAtCI : List Char → List Char → Bool
  | _, [] => true
  | [], _ :: _ => false
  | c :: cs, d :: ds => c.toLower == d.toLower && matchesAtCI cs ds

/-- Fuel-driven worker for `removeCI`. -/
def removeCIAux : Nat → List Char → List Char → List Char
  | 0, hay, _ => hay
  | _ + 1, [], _ => []
  | f + 1, c :: t, needle =>
    if matchesAtCI (c :: t) needle && !needle.isEmpty then
      removeCIAux f (List.drop (needle.length - 1) t) needle
    else
      c :: removeCIAux f t needle

/-- Python `re.sub(pattern, '', hay, flags=re.IGNORECASE)` for a literal
pattern: delete every occurrence, case-insensitively, leftmost first. -/
def removeCI (hay needle : String) : String :=
  ⟨removeCIAux hay.data.length hay.data needle.data⟩

/-- Worker for `collapseWs`: the boolean records whether the previous
character was whitespace (so a run emits a single space). -/
def collapseWsAux : List Char → Bool → List Char
  | [], _ => []
  | c :: t, prevWs =>
    if c.isWhitespace then
      if prevWs then collapseWsAux t true else ' ' :: collapseWsAux t true
    else
      c :: collapseWsAux t false

/-- Python `re.sub(r'\s+', ' ', s)`: collapse each whitespace run to a
single space. -/
def collapseWs (s : String) : String := ⟨collapseWsAux s.data false⟩

/-- Index of the last newline of a char list, if any. -/
def lastNl : List Char → Option Nat
  | [] => Option.none
  | c :: t =>
    match lastNl t with
    | some i => some (i + 1)
    | Option.none => if c = '\n' then some 0 else Option.none

/-- Fuel-driven worker for `nlSqueeze`. -/
def nlSqueezeAux : Nat → List Char → List Char
  | 0, hay => hay
  | _ + 1, [] => []
  | f + 1, c :: t =>
    if c = '\n' then
      match lastNl (t.takeWhile Char.isWhitespace) with
      | some i => '\n' :: '\n' :: nlSqueezeAux f (t.drop (i + 1))
      | Option.none => c :: nlSqueezeAux f t
    else
      c :: nlSqueezeAux f t

/-- Python `re.sub(r'\n\s*\n', '\n\n', s)`: a match starts at a newline
and, thanks to the greedy `\s*` with backtracking, extends to the last
newline of the maximal whitespace run that follows. -/
def nlSqueeze (s : String) : String := ⟨nlSqueezeAux s.data.length s.data⟩

/-! ## Data model (src/models/schemas.py) -/

inductive BiasType
  | source_bias | statistical_misuse | logical_fallacy
  | selection_bias | framing_bias | emotional_manipulation
  deriving DecidableEq

inductive SeverityLevel
  | high | medium | low
  deriving DecidableEq

inductive EvidenceQuality
  | strong | moderate | weak | evNone
  deriving DecidableEq

inductive ToneType
  | neutral | persuasive | emotional | inflammatory
  deriving DecidableEq

structure ArticleContent where
  url : String
  title : Option String
  content : String
  author : Option String
  publish_date : Option String
  domain : String
  language : Option String
  quality_score : ℚ
  extraction_method : String
  deriving DecidableEq

structure Claim where
  claim : String
  evidence_quality : EvidenceQuality
  verifiable : Bool
  context : Option String
  confidence : ℚ
  deriving DecidableEq

structure RedFlag where
  type : BiasType
  description : String
  severity : SeverityLevel
  evidence : Option String
  confidence : ℚ
  deriving DecidableEq

structure LanguageAnalysis where
  tone : ToneType
  bias_indicators : List String
  loaded_language : List String
  emotional_words : List String
  persuasive_techniques : List String
  deriving DecidableEq

structure Entity where
  text : String
  label : String
  confidence : ℚ
  context : Option String
  deriving DecidableEq

structure SourceMetrics where
  domain_authority : Option ℚ
  bias_rating : Option String
  factual_reporting : Option String
  funding_transparency : Option String
  deriving DecidableEq

structure VerificationQuestion where
  question : String
  category : String
  priority : Nat
  research_tips : List String
  deriving DecidableEq

structure CounterNarrative where
  opposing_viewpoint : String
  alternative_explanations : List String
  missing_context : List String
  potential_rebuttals : List String
  deriving DecidableEq

structure AnalysisResult where
  article : ArticleContent
  core_claims : List Claim
  language_analysis : LanguageAnalysis
  red_flags : List RedFlag
  verification_questions : List VerificationQuestion
  entities : List Entity
  source_metrics : Option SourceMetrics
  counter_narrative : Option CounterNarrative
  bias_confidence : ℚ
  overall_credibility : ℚ
  deriving DecidableEq

/-! ## Content validator (src/utils/validators.py, class ContentValidator)

`langdetect.detect` is an external ML library; it is modelled as an
explicit parameter `ld : String → Option String` giving the detected
language of a text (`Option.none` models `LangDetectException`). -/

namespace ContentValidator

def MIN_CONTENT_LENGTH : Nat := 500

def MIN_PARAGRAPHS : Nat := 3

/-- `ContentValidator.calculate_content_quality`.  The `title` default in
Python is `None`; the weighted components are accumulated exactly as in
the source and the result clamped by `min(1.0, score)`. -/
def calculate_content_quality (ld : String → Option String)
    (content : String) (title : Option String) : ℚ :=
  if content = "" then 0
  else
    let length := content.length
    let score1 : ℚ :=
      if MIN_CONTENT_LENGTH ≤ length then
        min (3/10) ((length : ℚ) / 10000 * (3/10))
      else 0
    let paragraphs := pyCount content "\n\n" + pyCount content "\n \n"
    let score2 : ℚ :=
      if MIN_PARAGRAPHS ≤ paragraphs then
        min (3/10) ((paragraphs : ℚ) / 10 * (3/10))
      else 0
    let sentences := pyCount content "." + pyCount content "!" + pyCount content "?"
    let avg_sentence_length : ℚ := (length : ℚ) / (max sentences 1 : ℚ)
    let score3 : ℚ :=
      if 10 ≤ avg_sentence_length ∧ avg_sentence_length ≤ 100 then 2/10 else 0
    let score4 : ℚ :=
      match title with
      | some t => if 10 < t.length then 1/10 else 0
      | Option.none => 0
    let score5 : ℚ := if ld content = some "en" then 1/10 else 0
    min 1 (score1 + score2 + score3 + score4 + score5)

/-- `ContentValidator.detect_language` (the try/except around
`langdetect.detect` is the `Option` of the model). -/
def detect_language (ld : String → Option String) (content : String) :
    Option String := ld content

/-- The fixed boilerplate phrases removed by `clean_content` (the final
regex `\[Advertisement\]` matches the literal bracketed string). -/
def artifacts : List String :=
  ["Cookie Policy", "Privacy Policy", "Terms of Service",
   "Subscribe to newsletter", "Follow us on", "Share this article",
   "Advertisement", "[Advertisement]"]

/-- `ContentValidator.clean_content`. -/
def clean_content (content : String) : String :=
  if content = "" then ""
  else
    let c1 := collapseWs content
    let c2 := artifacts.foldl (fun acc a => removeCI acc a) c1
    let c3 := nlSqueeze c2
    pyStrip c3

/-- Characters accepted by a URL scheme after its first letter
(CPython's `scheme_chars`). -/
def schemeChar (c : Char) : Bool :=
  c.isAlphanum || c = '+' || c = '-' || c = '.'

/-- Split a char list at its first colon. -/
def splitAtColon : List Char → Option (List Char × List Char)
  | [] => Option.none
  | c :: t =>
    if c = ':' then some ([], t)
    else
      match splitAtColon t with
      | some (s, r) => some (c :: s, r)
      | Option.none => Option.none

/-- Modelled from CPython `urllib.parse.urlsplit`, restricted to the
`netloc` component over ASCII URLs: strip a syntactically valid scheme,
read the netloc after a `//` up to the next `/`, `?` or `#`, and signal
the `ValueError` that CPython raises for unbalanced square brackets as
`Option.none`.  URLs without a `//` have an empty netloc. -/
def urlsplitNetloc (url : String) : Option String :=
  let rest : List Char :=
    match splitAtColon url.data with
    | some (s, r) =>
      match s with
      | [] => url.data
      | c0 :: srest => if c0.isAlpha && srest.all schemeChar then r else url.data
    | Option.none => url.data
  match rest with
  | '/' :: '/' :: r2 =>
    let netloc := r2.takeWhile (fun c => !(c = '/' || c = '?' || c = '#'))
    if (netloc.contains '[' && !netloc.contains ']') ||
       (netloc.contains ']' && !netloc.contains '[') then Option.none
    else some ⟨netloc⟩
  | _ => some ""

/-- `ContentValidator.extract_domain`:
`urlparse(url).netloc.lower().replace('www.', '')`, catching any parse
exception as the empty string. -/
def extract_domain (url : String) : String :=
  match urlsplitNetloc url with
  | some netloc => pyReplace (pyLower netloc) "www." ""
  | Option.none => ""

/-- The fixed not-an-article phrases of `is_article_content`. -/
def non_article_indicators : List String :=
  ["404 not found", "page not found", "access denied", "login required",
   "subscribe to continue", "paywall", "premium content"]

/-- `ContentValidator.is_article_content`. -/
def is_article_content (content : String) : Bool :=
  if content = "" || content.length < MIN_CONTENT_LENGTH then false
  else
    let has_paragraphs := decide (MIN_PARAGRAPHS ≤ pyCount content "\n\n")
    let has_sentences := decide (5 ≤ pyCount content ".")
    let content_lower := pyLower content
    let has_non_article :=
      non_article_indicators.any (fun ind => pyIn ind content_lower)
    has_paragraphs && has_sentences && !has_non_article

/-- Render a rational with two decimals, approximating Python's
`f"{x:.2f}"` (the tie-rounding style differs, which none of the values in
this code base exercise). -/
def fmt2 (q : ℚ) : String :=
  let n : ℤ := round (q * 100)
  let ip := n / 100
  let fp := (n % 100).toNat
  toString ip ++ "." ++ (if fp < 10 then "0" else "") ++ toString fp

/-- `ContentValidator.validate_extraction_result`:
`(is_valid, reason, quality_score)`. -/
def validate_extraction_result (ld : String → Option String)
    (content url method : String) : Bool × String × ℚ :=
  if content = "" then (false, "No content extracted", 0)
  else if !is_article_content content then
    (false, "Content does not appear to be an article", 0)
  else if calculate_content_quality ld content Option.none < 3/10 then
    (false,
     "Content quality too low: " ++ fmt2 (calculate_content_quality ld content Option.none),
     calculate_content_quality ld content Option.none)
  else
    (true, "Valid article content extracted via " ++ method,
     calculate_content_quality ld content Option.none)

end ContentValidator

/-! ## Stable sort

Python's `sorted` is a stable sort; with `reverse=True` it orders by the
key descending, ties keeping their original order.  The output of a stable
sort is uniquely determined by the comparison, so it is modelled by a
structurally recursive insertion sort: `le x y` holds when `x` may be
placed before `y` (for `reverse=True` on key `k`: `k y ≤ k x`). -/

def insertBy (le : α → α → Bool) (x : α) : List α → List α
  | [] => [x]
  | y :: t => if le x y then x :: y :: t else y :: insertBy le x t

/-- Python `sorted(l, key=..., reverse=True)` as a stable insertion sort
for the comparison `le` described above. -/
def pySorted (le : α → α → Bool) : List α → List α
  | [] => []
  | x :: t => insertBy le x (pySorted le t)

/-! ## Analysis orchestrator (src/core/orchestrator.py, class
AnalysisOrchestrator): merge helpers -/

namespace AnalysisOrchestrator

/-- `AnalysisOrchestrator._claims_similar`: Jaccard similarity of the
word sets of the two (already whitespace-normalized, lowercased) claim
strings, strict threshold `> 0.6`. -/
def claims_similar (claim1 claim2 : String) : Bool :=
  let words1 : Finset String := (pyWords claim1).toFinset
  let words2 : Finset String := (pyWords claim2).toFinset
  let intersection := (words1 ∩ words2).card
  let union := (words1 ∪ words2).card
  let similarity : ℚ := if 0 < union then (intersection : ℚ) / union else 0
  decide (similarity > 6/10)

/-- Loop body of `AnalysisOrchestrator._merge_claims`: walk the
concatenated list keeping a claim unless its simplified form
(`' '.join(claim.claim.lower().split())`) is similar to one in the seen
set; returns the kept claims and the final seen set.  The Python seen
set is modelled as a list (only membership/existence is ever used). -/
def mergeClaimsAux : List Claim → List String → List Claim × List String
  | [], seen => ([], seen)
  | c :: rest, seen =>
    let simplified := joinWords (pyLower c.claim)
    if seen.any (fun s => claims_similar simplified s) then
      mergeClaimsAux rest seen
    else
      let p := mergeClaimsAux rest (simplified :: seen)
      (c :: p.1, p.2)

/-- Comparison of `sorted(..., key=lambda x: x.confidence, reverse=True)`:
`x` may precede `y` when `y.confidence ≤ x.confidence`. -/
def confDesc (x y : Claim) : Bool := decide (y.confidence ≤ x.confidence)

/-- `AnalysisOrchestrator._merge_claims`. -/
def merge_claims (traditional_claims ai_claims : List Claim) : List Claim :=
  (pySorted confDesc (mergeClaimsAux (traditional_claims ++ ai_claims) []).1).take 8

/-- `severity_order = {'high': 3, 'medium': 2, 'low': 1}`; the `.get`
default 0 is unreachable because `SeverityLevel` is a closed enum. -/
def severity_order : SeverityLevel → Nat
  | SeverityLevel.high => 3
  | SeverityLevel.medium => 2
  | SeverityLevel.low => 1

/-- Comparison of `sorted(..., key=lambda x: (severity_order[x], x.confidence),
reverse=True)`: lexicographic tuple order, descending. -/
def sevConfDesc (x y : RedFlag) : Bool :=
  decide (severity_order y.severity < severity_order x.severity ∨
    (severity_order y.severity = severity_order x.severity ∧
      y.confidence ≤ x.confidence))

/-- Loop body of `AnalysisOrchestrator._merge_red_flags`: dedupe by exact
equality of the whitespace-normalized lowercased description. -/
def mergeFlagsAux : List RedFlag → List String → List RedFlag × List String
  | [], seen => ([], seen)
  | f :: rest, seen =>
    let simplified_desc := joinWords (pyLower f.description)
    if simplified_desc ∈ seen then
      mergeFlagsAux rest seen
    else
      let p := mergeFlagsAux rest (simplified_desc :: seen)
      (f :: p.1, p.2)

/-- `AnalysisOrchestrator._merge_red_flags`. -/
def merge_red_flags (traditional_flags ai_flags : List RedFlag) : List RedFlag :=
  (pySorted sevConfDesc (mergeFlagsAux (traditional_flags ++ ai_flags) []).1).take 10

/-- Append the items of `items` to `base` skipping those already present
(the growing-list membership check of `_merge_language_analysis`). -/
def appendUnique (base items : List String) : List String :=
  items.foldl (fun acc x => if x ∈ acc then acc else acc ++ [x]) base

/-- `AnalysisOrchestrator._merge_language_analysis`. -/
def merge_language_analysis (traditional_analysis ai_analysis : LanguageAnalysis) :
    LanguageAnalysis :=
  { tone := ai_analysis.tone
    bias_indicators :=
      (appendUnique ai_analysis.bias_indicators traditional_analysis.bias_indicators).take 15
    loaded_language :=
      (appendUnique ai_analysis.loaded_language traditional_analysis.loaded_language).take 15
    emotional_words :=
      (appendUnique ai_analysis.emotional_words traditional_analysis.emotional_words).take 15
    persuasive_techniques :=
      (appendUnique ai_analysis.persuasive_techniques
        traditional_analysis.persuasive_techniques).take 10 }

end AnalysisOrchestrator

/-! ## Claim extractor (src/analysis/claim_extractor.py, class
ClaimExtractor): intra-source deduplication -/

namespace ClaimExtractor

/-- A character kept by `re.sub(r'[^\w\s]', '', s)` (ASCII `\w` is
alphanumeric or underscore). -/
def wordOrSpaceChar (c : Char) : Bool :=
  c.isAlphanum || c = '_' || c.isWhitespace

/-- The normalization of `_deduplicate_claims`:
`re.sub(r'[^\w\s]', '', claim.lower())` then `' '.join(split())`. -/
def simplifyClaim (s : String) : String :=
  joinWords ⟨(pyLower s).data.filter wordOrSpaceChar⟩

/-- `ClaimExtractor._claims_similar`: Jaccard similarity with strict
threshold `> 0.7`. -/
def claims_similar (claim1 claim2 : String) : Bool :=
  let words1 : Finset String := (pyWords claim1).toFinset
  let words2 : Finset String := (pyWords claim2).toFinset
  let intersection := (words1 ∩ words2).card
  let union := (words1 ∪ words2).card
  let similarity : ℚ := if 0 < union then (intersection : ℚ) / union else 0
  decide (similarity > 7/10)

/-- Loop body of `ClaimExtractor._deduplicate_claims`. -/
def dedupAux : List Claim → List String → List Claim × List String
  | [], seen => ([], seen)
  | c :: rest, seen =>
    let simplified := simplifyClaim c.claim
    if seen.any (fun s => claims_similar simplified s) then
      dedupAux rest seen
    else
      let p := dedupAux rest (simplified :: seen)
      (c :: p.1, p.2)

/-- `ClaimExtractor._deduplicate_claims`. -/
def deduplicate_claims (claims : List Claim) : List Claim :=
  (dedupAux claims []).1

end ClaimExtractor

/-! ## Content extractor (src/extraction/content_extractor.py, class
ContentExtractor): the strategy fallback loop of `extract_content`.

A strategy is one entry of the `extractors` list: its name and the
outcome of awaiting it on the request URL (an exception, `None`, or a
string).  The title/author/date side channels (`_extract_title` etc.
read mutable per-method instance state populated by the strategies) are
modelled as explicit functions of `(url, method)`. -/

deriving instance DecidableEq for Except

namespace ContentExtractor

structure Strategy where
  name : String
  /-- Outcome of `await extractor(url)`: `Except.error e` models a raised
  exception, `Except.ok Option.none` models `None`, `Except.ok (some s)`
  a returned string (falsy when empty). -/
  run : Except String (Option String)
  deriving DecidableEq

/-- The `for method_name, extractor in extractors:` loop of
`extract_content`, carrying `last_error` (only a raising strategy updates
it); exhaustion raises the final aggregate exception, with Python's
`str(None)` rendering of an absent last error. -/
def extractGo (ld : String → Option String)
    (sideTitle sideAuthor sideDate : String → String → Option String)
    (url domain : String) :
    List Strategy → Option String → Except String ArticleContent
  | [], last_error =>
    Except.error ("All extraction methods failed. Last error: " ++
      (match last_error with
       | some e => e
       | Option.none => "None"))
  | s :: rest, last_error =>
    match s.run with
    | Except.error e => extractGo ld sideTitle sideAuthor sideDate url domain rest (some e)
    | Except.ok Option.none =>
      extractGo ld sideTitle sideAuthor sideDate url domain rest last_error
    | Except.ok (some content) =>
      if content = "" then
        extractGo ld sideTitle sideAuthor sideDate url domain rest last_error
      else if (ContentValidator.validate_extraction_result ld content url s.name).1 then
        Except.ok
          { url := url
            title := sideTitle url s.name
            content := ContentValidator.clean_content content
            author := sideAuthor url s.name
            publish_date := sideDate url s.name
            domain := domain
            language := ContentValidator.detect_language ld content
            quality_score :=
              (ContentValidator.validate_extraction_result ld content url s.name).2.2
            extraction_method := s.name }
      else
        extractGo ld sideTitle sideAuthor sideDate url domain rest last_error

/-- A strategy that does not win the chain: it raises, returns `None`,
returns an empty (falsy) string, or returns content that fails
`validate_extraction_result`. -/
def stratFails (ld : String → Option String) (url : String) (s : Strategy) : Prop :=
  (∃ e, s.run = Except.error e) ∨
  s.run = Except.ok Option.none ∨
  s.run = Except.ok (some "") ∨
  (∃ c, s.run = Except.ok (some c) ∧ c ≠ "" ∧
    (ContentValidator.validate_extraction_result ld c url s.name).1 = false)

end ContentExtractor

/-! ## Orchestrator pipeline (src/core/orchestrator.py,
`AnalysisOrchestrator.analyze_article`)

The collaborators held by the orchestrator (scraper, extractors,
analyzers, generators, formatter) are modelled as explicit functions
returning `Except String α`: `Except.error e` models a raised exception
caught by the surrounding `try/except Exception`.  `α` is the opaque type
of the raw AI analysis payload passed between `analyzer.analyze_article`
and `analyzer.parse_analysis_to_models`.  Wall-clock readings
`time.time()` at entry and at response construction are the two explicit
rational arguments. -/

structure AnalysisRequest where
  url : String
  include_counter_narrative : Bool := true
  include_entity_analysis : Bool := true
  include_source_check : Bool := true

/-- The dict returned by `analyzer.parse_analysis_to_models`. -/
structure ParsedAI where
  claims : List Claim
  red_flags : List RedFlag
  language_analysis : LanguageAnalysis
  bias_confidence : ℚ
  overall_credibility : ℚ

structure AnalysisResponse where
  success : Bool
  result : Option AnalysisResult := Option.none
  markdown_report : Option String := Option.none
  error : Option String := Option.none
  processing_time : Option ℚ := Option.none

structure Collaborators (α : Type) where
  scrape_article : String → Except String ArticleContent
  extract_entities : String → Option String → Except String (List Entity)
  extract_source_metrics : String → String → Except String SourceMetrics
  extract_claims : String → Option String → Except String (List Claim)
  detect_language_bias : String → Option String → Except String LanguageAnalysis
  detect_structural_bias : String → Except String (List RedFlag)
  ai_analyze_article : String → String → Option String → Option String → String →
    Option String → Except String α
  parse_analysis_to_models : α → Except String ParsedAI
  generate_verification_questions :
    List Claim → List Entity → String → String → Except String (List VerificationQuestion)
  generate_counter_narrative : AnalysisResult → Except String CounterNarrative
  format_analysis_report : AnalysisResult → Except String String

namespace AnalysisOrchestrator

/-- The body of the `try` block of `AnalysisOrchestrator.analyze_article`
(steps 1 through 11): the first raising stage short-circuits the rest. -/
def analyze_pipeline (C : Collaborators α) (request : AnalysisRequest) :
    Except String (AnalysisResult × String) := do
    let article_content ← C.scrape_article request.url
    let entities ←
      if request.include_entity_analysis then
        C.extract_entities article_content.content article_content.title
      else pure []
    let source_metrics ←
      if request.include_source_check then do
        let m ← C.extract_source_metrics article_content.domain request.url
        pure (some m)
      else pure Option.none
    let traditional_claims ←
      C.extract_claims article_content.content article_content.title
    let traditional_language_analysis ←
      C.detect_language_bias article_content.content article_content.title
    let traditional_red_flags ←
      C.detect_structural_bias article_content.content
    let ai_analysis_data ←
      C.ai_analyze_article article_content.content request.url
        article_content.title article_content.author article_content.domain
        article_content.publish_date
    let parsed_ai ← C.parse_analysis_to_models ai_analysis_data
    let all_claims := merge_claims traditional_claims parsed_ai.claims
    let all_red_flags := merge_red_flags traditional_red_flags parsed_ai.red_flags
    let final_language_analysis :=
      merge_language_analysis traditional_language_analysis parsed_ai.language_analysis
    let verification_questions ←
      C.generate_verification_questions all_claims entities
        article_content.content article_content.domain
    let counter_narrative ←
      if request.include_counter_narrative then do
        let temp_analysis_result : AnalysisResult :=
          { article := article_content
            core_claims := all_claims
            language_analysis := final_language_analysis
            red_flags := all_red_flags
            verification_questions := verification_questions
            entities := entities
            source_metrics := source_metrics
            counter_narrative := Option.none
            bias_confidence := parsed_ai.bias_confidence
            overall_credibility := parsed_ai.overall_credibility }
        let cn ← C.generate_counter_narrative temp_analysis_result
        pure (some cn)
      else pure Option.none
    let analysis_result : AnalysisResult :=
      { article := article_content
        core_claims := all_claims
        language_analysis := final_language_analysis
        red_flags := all_red_flags
        verification_questions := verification_questions
        entities := entities
        source_metrics := source_metrics
        counter_narrative := counter_narrative
        bias_confidence := parsed_ai.bias_confidence
        overall_credibility := parsed_ai.overall_credibility }
    let markdown_report ← C.format_analysis_report analysis_result
    pure (analysis_result, markdown_report)

/-- `AnalysisOrchestrator.analyze_article`: the pipeline inside the `try`
block, with any stage's exception converted by the `except` block into a
failure response carrying `"Analysis failed: "` plus the message and the
elapsed time. -/
def analyze_article (C : Collaborators α) (request : AnalysisRequest)
    (start_time now : ℚ) : AnalysisResponse :=
  match analyze_pipeline C request with
  | Except.ok (analysis_result, markdown_report) =>
    { success := true
      result := some analysis_result
      markdown_report := some markdown_report
      processing_time := some (now - start_time) }
  | Except.error e =>
    { success := false
      error := some ("Analysis failed: " ++ e)
      processing_time := some (now - start_time) }

end AnalysisOrchestrator

/-! ## Concrete articles used in counterexamples and witnesses -/

/-- 505 characters, three non-overlapping paragraph breaks, five `'?'`
and four `'.'` terminators, no blocked phrase. -/
def probeText : String :=
  ⟨List.replicate 490 'a'⟩ ++ "\n\n\n\n\n\n" ++ "?????" ++ "...."

/-- 500 characters, 25 periods, no paragraph breaks: average sentence
length 20 earns the flat 0.2 quality bonus. -/
def denseText : String := ⟨List.replicate 475 'a' ++ List.replicate 25 '.'⟩

/-- `denseText` extended by 100 more periods: average sentence length
drops to 4.8, losing the 0.2 bonus. -/
def denseTextExt : String := denseText ++ ⟨List.replicate 100 '.'⟩

/-- Language detectors covering every behaviour an external detector can
show on the pair `denseText`/`denseTextExt`. -/
def ldNone : String → Option String := fun _ => Option.none

def ldEn : String → Option String := fun _ => some "en"

def ldFirstOnly : String → Option String :=
  fun s => if s = denseText then some "en" else Option.none

def ldSecondOnly : String → Option String :=
  fun s => if s = denseText then Option.none else some "en"

/-! ## Concrete collaborator and strategy instances used in witnesses -/

/-- Collaborators whose scraper raises (as when every extraction
strategy fails) and whose other stages are inert; used to witness C3. -/
def failingCollaborators : Collaborators Unit :=
  { scrape_article := fun _ =>
      Except.error "All extraction methods failed. Last error: None"
    extract_entities := fun _ _ => Except.ok []
    extract_source_metrics := fun _ _ =>
      Except.ok ⟨Option.none, Option.none, Option.none, Option.none⟩
    extract_claims := fun _ _ => Except.ok []
    detect_language_bias := fun _ _ =>
      Except.ok ⟨ToneType.neutral, [], [], [], []⟩
    detect_structural_bias := fun _ => Except.ok []
    ai_analyze_article := fun _ _ _ _ _ _ => Except.ok ()
    parse_analysis_to_models := fun _ =>
      Except.ok ⟨[], [], ⟨ToneType.neutral, [], [], [], []⟩, 1/2, 1/2⟩
    generate_verification_questions := fun _ _ _ _ => Except.ok []
    generate_counter_narrative := fun _ => Except.ok ⟨"", [], [], []⟩
    format_analysis_report := fun _ => Except.ok "" }

/-- 501 characters: three paragraph breaks, ten periods (average
sentence length 50.1), no blocked phrase; passes
`validate_extraction_result` with quality 0.40503 under an
English-detecting `ldEn`. -/
def goodText : String :=
  ⟨List.replicate 485 'a'⟩ ++ "\n\n\n\n\n\n" ++ ".........."

/-- A side channel returning no metadata. -/
def sideNone : String → String → Option String := fun _ _ => Option.none

/-- A strategy that raises. -/
def raisingStrategy : ContentExtractor.Strategy :=
  { name := "trafilatura", run := Except.error "boom" }

/-- A strategy that succeeds with `goodText`. -/
def goodStrategy : ContentExtractor.Strategy :=
  { name := "newspaper3k", run := Except.ok (some goodText) }

/-- A strategy after the winner, never reached. -/
def spareStrategy : ContentExtractor.Strategy :=
  { name := "readability", run := Except.ok (some "short") }

/-- The article built by the chain when `goodStrategy` wins at URL
`http://x.com`. -/
def goodArticle : ArticleContent :=
  { url := "http://x.com"
    title := sideNone "http://x.com" "newspaper3k"
    content := ContentValidator.clean_content goodText
    author := sideNone "http://x.com" "newspaper3k"
    publish_date := sideNone "http://x.com" "newspaper3k"
    domain := "x.com"
    language := ContentValidator.detect_language ldEn goodText
    quality_score :=
      (ContentValidator.validate_extraction_result ldEn goodText "http://x.com"
        "newspaper3k").2.2
    extraction_method := "newspaper3k" }

/-! ## Spec-side reference formulations (from the words of the spec)

The merge operations are re-stated the way the specification phrases
them — "keep a claim unless it is similar to an already-kept claim" —
carrying the kept list itself instead of the code's separate seen-set,
to be proved equal to the source embeddings. -/

/-- Spec formulation of the claim-merge dedup walk: `kept` is the list
of already-kept claims. -/
def specKeep : List Claim → List Claim → List Claim
  | _, [] => []
  | kept, c :: rest =>
    if kept.any (fun k => AnalysisOrchestrator.claims_similar
        (joinWords (pyLower c.claim)) (joinWords (pyLower k.claim))) then
      specKeep kept rest
    else
      c :: specKeep (kept ++ [c]) rest

/-- Spec formulation of the claim merge: concatenate heuristic-first,
keep-unless-similar (first-seen wins), stable-sort by confidence
descending, truncate to 8. -/
def specMergeClaims (heuristic ai : List Claim) : List Claim :=
  (pySorted AnalysisOrchestrator.confDesc (specKeep [] (heuristic ++ ai))).take 8

/-- Spec formulation of the red-flag dedup walk: drop a flag exactly
when its normalized description equals that of an already-kept flag. -/
def specKeepFlags : List RedFlag → List RedFlag → List RedFlag
  | _, [] => []
  | kept, f :: rest =>
    if kept.any (fun k =>
        joinWords (pyLower k.description) == joinWords (pyLower f.description)) then
      specKeepFlags kept rest
    else
      f :: specKeepFlags (kept ++ [f]) rest

/-- Spec formulation of the red-flag merge: concatenate, dedupe by exact
normalized-description equality, stable-sort by (severity rank,
confidence) descending, truncate to 10. -/
def specMergeRedFlags (heuristic ai : List RedFlag) : List RedFlag :=
  (pySorted AnalysisOrchestrator.sevConfDesc (specKeepFlags [] (heuristic ++ ai))).take 10

/-! ## Concrete claims and flags used in counterexamples and witnesses -/

/-- Claim with text `a b c`. -/
def claimABC : Claim :=
  { claim := "a b c", evidence_quality := EvidenceQuality.strong,
    verifiable := true, context := Option.none, confidence := 9/10 }

/-- Claim with text `a b`: its word set has Jaccard 2/3 > 0.6 with that
of `claimABC`. -/
def claimAB : Claim :=
  { claim := "a b", evidence_quality := EvidenceQuality.weak,
    verifiable := false, context := Option.none, confidence := 8/10 }

/-- Claim with text `d e f`, disjoint from `claimABC`. -/
def claimDEF : Claim :=
  { claim := "d e f", evidence_quality := EvidenceQuality.moderate,
    verifiable := true, context := Option.none, confidence := 7/10 }

/-- Words `a..h` (8 words); with `share7` the union has 10 words and the
intersection 7: Jaccard exactly 0.7. -/
def shareBase : Claim :=
  { claim := "a b c d e f g h", evidence_quality := EvidenceQuality.strong,
    verifiable := true, context := Option.none, confidence := 9/10 }

/-- Words `a..g x y` (9 words): shares 7 of the 10-word union with
`shareBase`. -/
def share7 : Claim :=
  { claim := "a b c d e f g x y", evidence_quality := EvidenceQuality.weak,
    verifiable := false, context := Option.none, confidence := 8/10 }

/-- Words `a..i` (9 words). -/
def nineBase : Claim :=
  { claim := "a b c d e f g h i", evidence_quality := EvidenceQuality.strong,
    verifiable := true, context := Option.none, confidence := 9/10 }

/-- Words `a..h x` (9 words): shares 8 of the 10-word union with
`nineBase`: Jaccard 0.8 > 0.7. -/
def share8 : Claim :=
  { claim := "a b c d e f g h x", evidence_quality := EvidenceQuality.weak,
    verifiable := false, context := Option.none, confidence := 8/10 }

/-- Words `a..g` (7 words). -/
def sevenBase : Claim :=
  { claim := "a b c d e f g", evidence_quality := EvidenceQuality.strong,
    verifiable := true, context := Option.none, confidence := 9/10 }

/-- Words `a..f x y z` (9 words): shares 6 of the 10-word union with
`sevenBase`: Jaccard 0.6. -/
def share6 : Claim :=
  { claim := "a b c d e f x y z", evidence_quality := EvidenceQuality.weak,
    verifiable := false, context := Option.none, confidence := 8/10 }

/-- 15 distinct high-severity heuristic flags (descriptions `h`, `ha`,
`haa`, ...). -/
def highFlagsHeuristic : List RedFlag :=
  (List.range 15).map (fun i =>
    { type := BiasType.source_bias
      description := ⟨'h' :: List.replicate i 'a'⟩
      severity := SeverityLevel.high
      evidence := Option.none
      confidence := 4/5 })

/-- 15 distinct high-severity AI flags (descriptions `g`, `ga`, ...). -/
def highFlagsAI : List RedFlag :=
  (List.range 15).map (fun i =>
    { type := BiasType.framing_bias
      description := ⟨'g' :: List.replicate i 'a'⟩
      severity := SeverityLevel.high
      evidence := Option.none
      confidence := 3/5 })

/-! ## Theorems about the claims

Batteries marks rational arithmetic irreducible for performance; the
concrete evaluations below need it unfolded. -/

attribute [local semireducible] Rat.add Rat.mul Rat.sub Rat.inv Rat.ofScientific

/-! ## C4: is_article_content -/

set_option maxRecDepth 200000 in
/-- C4 (counterexample): `probeText` satisfies every condition of the
claim — length ≥ 500, ≥ 3 paragraph breaks, ≥ 5 sentence terminators
counting `'.'`, `'!'` and `'?'`, and no blocked phrase — yet
`is_article_content` returns `false`, because the code counts only
`'.'` (`content.count('.') >= 5`) and `probeText` has just four periods.
This refutes the claimed if-and-only-if. -/
theorem claim_C4_counterexample :
    (500 ≤ probeText.length ∧ 3 ≤ pyCount probeText "\n\n" ∧
      5 ≤ pyCount probeText "." + pyCount probeText "!" + pyCount probeText "?" ∧
      ∀ p ∈ ContentValidator.non_article_indicators,
        pyIn p (pyLower probeText) = false) ∧
    ContentValidator.is_article_content probeText = false := by
  decide

/-- C4 (amended): `is_article_content T` is true iff `T` has length ≥
500, at least 3 paragraph breaks, at least 5 sentence terminators
counting only `'.'`, and none of the fixed not-an-article phrases occur
in `T` case-insensitively. -/
theorem claim_C4_amended (content : String) :
    ContentValidator.is_article_content content = true ↔
      (500 ≤ content.length ∧ 3 ≤ pyCount content "\n\n" ∧
        5 ≤ pyCount content "." ∧
        ∀ p ∈ ContentValidator.non_article_indicators,
          pyIn p (pyLower content) = false) := by
  unfold ContentValidator.is_article_content
  simp only [ContentValidator.MIN_CONTENT_LENGTH, ContentValidator.MIN_PARAGRAPHS]
  split
  case isTrue h =>
    simp only [Bool.false_eq_true, false_iff]
    rintro ⟨h1, -, -, -⟩
    rcases by simpa using h with h0 | hlen
    · rw [h0] at h1; simp at h1
    · omega
  case isFalse h =>
    simp only [Bool.and_eq_true, Bool.not_eq_true', decide_eq_true_eq,
      List.any_eq_false]
    have hlen : 500 ≤ content.length := by
      rcases Nat.lt_or_ge content.length 500 with hl | hg
      · exact absurd (by simp [hl]) h
      · exact hg
    constructor
    · rintro ⟨⟨hp, hs⟩, hn⟩
      exact ⟨hlen, hp, hs, fun p hp2 => by simpa using hn p hp2⟩
    · rintro ⟨-, hp, hs, hn⟩
      exact ⟨⟨hp, hs⟩, fun p hp2 => by simpa using hn p hp2⟩

/-! ## C8: calculate_content_quality -/

/-- The quality score is clamped by `min 1 _` (and is 0 on empty
content), so it never exceeds 1. -/
theorem quality_le_one (ld : String → Option String)
    (content : String) (title : Option String) :
    ContentValidator.calculate_content_quality ld content title ≤ 1 := by
  unfold ContentValidator.calculate_content_quality
  split
  · norm_num
  · exact min_le_left _ _

set_option maxRecDepth 400000 in
/-- C8 (counterexample): extending `denseText` (quality ≥ 0.215 under
any detector) by 100 periods drops the quality to at most 0.118: the
average-sentence-length bonus of 0.2 is lost and the small length gain
cannot compensate.  The four detector behaviours cover everything an
external language detector can do on the two texts, so the claimed
monotonicity in content length fails regardless of the detector. -/
theorem claim_C8_counterexample :
    ContentValidator.calculate_content_quality ldNone denseTextExt Option.none <
      ContentValidator.calculate_content_quality ldNone denseText Option.none ∧
    ContentValidator.calculate_content_quality ldEn denseTextExt Option.none <
      ContentValidator.calculate_content_quality ldEn denseText Option.none ∧
    ContentValidator.calculate_content_quality ldFirstOnly denseTextExt Option.none <
      ContentValidator.calculate_content_quality ldFirstOnly denseText Option.none ∧
    ContentValidator.calculate_content_quality ldSecondOnly denseTextExt Option.none <
      ContentValidator.calculate_content_quality ldSecondOnly denseText Option.none := by
  decide

/-- C8 (amended): the monotonicity half of the claim is false (see the
counterexample); the remaining half holds: for every detector, content
and title, `calculate_content_quality` never exceeds 1.0. -/
theorem claim_C8_amended (ld : String → Option String)
    (content : String) (title : Option String) :
    ContentValidator.calculate_content_quality ld content title ≤ 1 :=
  quality_le_one ld content title

/-! ## C9: extract_domain -/

/-- A list matches at the head of itself followed by anything. -/
theorem matchesAt_append (xs ys : List Char) : matchesAt (xs ++ ys) xs = true := by
  induction xs with
  | nil => simp [matchesAt]
  | cons c t ih => simp [matchesAt, ih]

/-- If the pattern occurs nowhere in the haystack, replacement by the
empty string leaves the haystack unchanged (fuel at least the length). -/
theorem replaceAux_no_match (f : Nat) (hay pat : List Char)
    (hno : containsSeq hay pat = false) (hf : hay.length ≤ f) :
    replaceAux f hay pat [] = hay := by
  induction f generalizing hay with
  | zero => cases hay with
    | nil => rfl
    | cons c t => simp at hf
  | succ f ih =>
    cases hay with
    | nil => rfl
    | cons c t =>
      unfold containsSeq at hno
      rw [Bool.or_eq_false_iff] at hno
      unfold replaceAux
      rw [if_neg (by simp [hno.1])]
      rw [ih t hno.2 (by simpa using Nat.succ_le_succ_iff.mp hf)]

/-- Dropping an occurrence of the pattern at the head: with the pattern
`www.` in front and no further occurrence, replacement by the empty
string yields exactly the remainder. -/
theorem replaceAux_head_www (f : Nat) (r : List Char)
    (hno : containsSeq r ("www.".data) = false) (hf : r.length ≤ f) :
    replaceAux (f + 1) ('w' :: 'w' :: 'w' :: '.' :: r) ("www.".data) [] = r := by
  have hdata : ("www." : String).data = ['w', 'w', 'w', '.'] := rfl
  rw [hdata] at hno ⊢
  simp only [replaceAux]
  rw [if_pos (by simpa using matchesAt_append ['w', 'w', 'w', '.'] r)]
  exact replaceAux_no_match f r _ hno hf

/-- C9 (counterexample): for `http://en.www.example.com/x` the host is
`en.www.example.com`, which has no leading `www.` prefix, so the claim
says it is returned untouched; the code instead removes the interior
occurrence and returns `en.example.com`, because
`netloc.lower().replace('www.', '')` removes every occurrence of
`www.`, not only a leading one. -/
theorem claim_C9_counterexample :
    ContentValidator.urlsplitNetloc "http://en.www.example.com/x" =
      some "en.www.example.com" ∧
    ContentValidator.extract_domain "http://en.www.example.com/x" =
      "en.example.com" ∧
    "en.example.com" ≠ "en.www.example.com" := by
  refine ⟨by decide, by decide, by decide⟩

/-- C9 (amended): `extract_domain` returns the lowercased host with
every non-overlapping occurrence of `www.` removed, leftmost first (so
a leading `www.` prefix is still stripped, but interior occurrences are
removed as well), and the empty string on parse failure, never
throwing.  Stated as: parse failure gives `""`; a host without any
`www.` occurrence is returned lowercased and untouched; a host whose
lowercase form is `www.` followed by a remainder free of `www.` yields
exactly that remainder; and a concrete mixed-case leading-`www.` URL. -/
theorem claim_C9_amended :
    (∀ url, ContentValidator.urlsplitNetloc url = Option.none →
      ContentValidator.extract_domain url = "") ∧
    (∀ url h, ContentValidator.urlsplitNetloc url = some h →
      pyIn "www." (pyLower h) = false →
      ContentValidator.extract_domain url = pyLower h) ∧
    (∀ url h r, ContentValidator.urlsplitNetloc url = some h →
      pyLower h = "www." ++ r → pyIn "www." r = false →
      ContentValidator.extract_domain url = r) ∧
    ContentValidator.extract_domain "https://www.Example.COM/p" = "example.com" := by
  refine ⟨?_, ?_, ?_, by decide⟩
  · intro url hp
    unfold ContentValidator.extract_domain
    rw [hp]
  · intro url h hp hno
    unfold ContentValidator.extract_domain
    rw [hp]
    show pyReplace (pyLower h) "www." "" = pyLower h
    generalize pyLower h = d at hno ⊢
    obtain ⟨l⟩ := d
    show String.mk (replaceAux (String.mk l).data.length (String.mk l).data
      ("www.".data) []) = String.mk l
    rw [replaceAux_no_match _ _ _ (by simpa [pyIn] using hno) (le_refl _)]
  · intro url h r hp hlow hno
    unfold ContentValidator.extract_domain
    rw [hp]
    show pyReplace (pyLower h) "www." "" = r
    rw [hlow]
    obtain ⟨rl⟩ := r
    show String.mk (replaceAux ("www." ++ String.mk rl : String).data.length
      ("www." ++ String.mk rl : String).data ("www.".data) []) = String.mk rl
    have hd : ("www." ++ String.mk rl : String).data =
        'w' :: 'w' :: 'w' :: '.' :: rl := rfl
    rw [hd]
    have hlen : ('w' :: 'w' :: 'w' :: '.' :: rl : List Char).length =
        rl.length + 3 + 1 := by simp
    rw [hlen]
    rw [replaceAux_head_www (rl.length + 3) rl (by simpa [pyIn] using hno) (by omega)]

/-- C9 (witness): the amended theorem applied at concrete URLs. -/
theorem claim_C9_witness :
    ContentValidator.extract_domain "http://[" = "" ∧
    ContentValidator.extract_domain "http://ex.com/a" = pyLower "ex.com" ∧
    ContentValidator.extract_domain "http://www.ex.com/a" = "ex.com" ∧
    ContentValidator.extract_domain "https://www.Example.COM/p" = "example.com" :=
  ⟨claim_C9_amended.1 "http://[" (by decide),
   claim_C9_amended.2.1 "http://ex.com/a" "ex.com" (by decide) (by decide),
   claim_C9_amended.2.2.1 "http://www.ex.com/a" "www.ex.com" "ex.com"
     (by decide) (by decide) (by decide),
   claim_C9_amended.2.2.2⟩

/-! ## C3: analyze_article never propagates, failure shape -/

/-- C3: for every set of collaborators, request and pair of clock
readings, `analyze_article` returns a total, well-formed response (the
shallow embedding is a total function: the `try/except Exception`
converts every pipeline exception into a value): the elapsed time is
always attached and non-negative, a failed response carries the
non-empty `"Analysis failed: ..."` error string, and any pipeline-stage
failure — in particular the scraper raising `ExtractionFailed` when all
extraction strategies fail — yields `success = false`. -/
theorem claim_C3_analyze_total {α : Type} (C : Collaborators α)
    (request : AnalysisRequest) (start_time now : ℚ)
    (h : start_time ≤ now) :
    (AnalysisOrchestrator.analyze_article C request start_time now).processing_time =
      some (now - start_time) ∧
    (0 : ℚ) ≤ now - start_time ∧
    ((AnalysisOrchestrator.analyze_article C request start_time now).success = false →
      ∃ e, (AnalysisOrchestrator.analyze_article C request start_time now).error =
          some ("Analysis failed: " ++ e) ∧ "Analysis failed: " ++ e ≠ "") ∧
    (∀ e, C.scrape_article request.url = Except.error e →
      (AnalysisOrchestrator.analyze_article C request start_time now).success = false) := by
  refine ⟨?_, by linarith, ?_, ?_⟩
  · unfold AnalysisOrchestrator.analyze_article
    cases AnalysisOrchestrator.analyze_pipeline C request with
    | ok v => cases v; rfl
    | error e => rfl
  · unfold AnalysisOrchestrator.analyze_article
    cases AnalysisOrchestrator.analyze_pipeline C request with
    | ok v =>
      cases v
      intro hfalse
      simp at hfalse
    | error e =>
      intro _
      refine ⟨e, rfl, fun hcon => ?_⟩
      have hlen := congrArg String.length hcon
      rw [String.length_append] at hlen
      have h17 : ("Analysis failed: " : String).length = 17 := rfl
      have h0 : ("" : String).length = 0 := rfl
      omega
  · intro e hscrape
    have hpipe : AnalysisOrchestrator.analyze_pipeline C request = Except.error e := by
      unfold AnalysisOrchestrator.analyze_pipeline
      rw [hscrape]
      rfl
    unfold AnalysisOrchestrator.analyze_article
    rw [hpipe]

/-- C3 (witness): the theorem applied to a concrete failing run with
clock readings 0 and 1. -/
theorem claim_C3_witness :
    (AnalysisOrchestrator.analyze_article failingCollaborators
      ⟨"http://x.com", true, true, true⟩ 0 1).processing_time = some (1 - 0) ∧
    (0 : ℚ) ≤ 1 - 0 ∧
    ((AnalysisOrchestrator.analyze_article failingCollaborators
        ⟨"http://x.com", true, true, true⟩ 0 1).success = false →
      ∃ e, (AnalysisOrchestrator.analyze_article failingCollaborators
          ⟨"http://x.com", true, true, true⟩ 0 1).error =
        some ("Analysis failed: " ++ e) ∧ "Analysis failed: " ++ e ≠ "") ∧
    (∀ e, failingCollaborators.scrape_article "http://x.com" = Except.error e →
      (AnalysisOrchestrator.analyze_article failingCollaborators
        ⟨"http://x.com", true, true, true⟩ 0 1).success = false) :=
  claim_C3_analyze_total failingCollaborators ⟨"http://x.com", true, true, true⟩ 0 1
    (by norm_num)

/-! ## C10: quality_score invariant of the extraction chain -/

/-- When `validate_extraction_result` accepts, the returned score is the
computed quality, which the acceptance gate bounds below by 0.3 and the
clamp bounds above by 1. -/
theorem validate_ok_bounds (ld : String → Option String)
    (content url method : String)
    (h : (ContentValidator.validate_extraction_result ld content url method).1 = true) :
    3/10 ≤ (ContentValidator.validate_extraction_result ld content url method).2.2 ∧
    (ContentValidator.validate_extraction_result ld content url method).2.2 ≤ 1 := by
  by_cases h1 : content = ""
  · simp [ContentValidator.validate_extraction_result, h1] at h
  · by_cases h2 : ContentValidator.is_article_content content
    · by_cases h3 :
        ContentValidator.calculate_content_quality ld content Option.none < 3/10
      · simp [ContentValidator.validate_extraction_result, h1, h2, h3] at h
      · simp only [ContentValidator.validate_extraction_result, h1, h2, h3,
          if_false, if_true, Bool.not_true, ite_false, ite_true]
        exact ⟨le_of_not_lt h3, quality_le_one ld content Option.none⟩
    · simp [ContentValidator.validate_extraction_result, h1, h2] at h

/-- C10: every `ArticleContent` returned by the extraction chain has
`quality_score` in `[0.3, 1]`: the only `Except.ok` exit of the strategy
loop stores the score accepted by `validate_extraction_result`. -/
theorem claim_C10_quality_invariant (ld : String → Option String)
    (st sa sd : String → String → Option String) (url domain : String)
    (strategies : List ContentExtractor.Strategy) (lastErr : Option String)
    (a : ArticleContent)
    (h : ContentExtractor.extractGo ld st sa sd url domain strategies lastErr =
      Except.ok a) :
    3/10 ≤ a.quality_score ∧ a.quality_score ≤ 1 := by
  induction strategies generalizing lastErr with
  | nil => simp [ContentExtractor.extractGo] at h
  | cons s rest ih =>
    unfold ContentExtractor.extractGo at h
    split at h
    · exact ih _ h
    · exact ih _ h
    · split at h
      · exact ih _ h
      · split at h
        · next content _ _ hv =>
            cases h
            exact validate_ok_bounds ld content url s.name hv
        · exact ih _ h

set_option maxRecDepth 1000000 in
/-- C10 (witness): a concrete successful run of the chain, with the
bounds instantiated on the article it returns. -/
theorem claim_C10_witness :
    ContentExtractor.extractGo ldEn sideNone sideNone sideNone "http://x.com" "x.com"
      [goodStrategy] Option.none = Except.ok goodArticle ∧
    3/10 ≤ goodArticle.quality_score ∧ goodArticle.quality_score ≤ 1 :=
  have h : ContentExtractor.extractGo ldEn sideNone sideNone sideNone
      "http://x.com" "x.com" [goodStrategy] Option.none = Except.ok goodArticle := by
    rfl
  ⟨h, claim_C10_quality_invariant ldEn sideNone sideNone sideNone "http://x.com"
      "x.com" [goodStrategy] Option.none goodArticle h⟩

/-! ## C2: first-success short-circuit of the extraction chain -/

/-- C2: if every strategy before `s` fails (raises, returns `None`,
returns an empty string, or fails validation) and `s` returns non-empty
content accepted by `validate_extraction_result`, then the chain's
result is `Except.ok` of an article whose `extraction_method` is
`s.name`, and the result does not depend on the strategies after `s`
(nor on the recorded last error) — they are never invoked. -/
theorem claim_C2_first_success (ld : String → Option String)
    (st sa sd : String → String → Option String) (url domain : String)
    (pre : List ContentExtractor.Strategy) (s : ContentExtractor.Strategy)
    (c : String) (rest rest2 : List ContentExtractor.Strategy)
    (lastErr lastErr2 : Option String)
    (hpre : ∀ t ∈ pre, ContentExtractor.stratFails ld url t)
    (hc : s.run = Except.ok (some c)) (hne : c ≠ "")
    (hv : (ContentValidator.validate_extraction_result ld c url s.name).1 = true) :
    ContentExtractor.extractGo ld st sa sd url domain (pre ++ s :: rest) lastErr =
      ContentExtractor.extractGo ld st sa sd url domain (pre ++ s :: rest2) lastErr2 ∧
    ∃ a, ContentExtractor.extractGo ld st sa sd url domain (pre ++ s :: rest) lastErr =
        Except.ok a ∧ a.extraction_method = s.name := by
  revert hpre
  induction pre generalizing lastErr lastErr2 with
  | nil =>
    intro _
    simp only [List.nil_append]
    constructor
    · unfold ContentExtractor.extractGo
      rw [hc]
      simp only [if_neg hne, hv, if_true]
    · unfold ContentExtractor.extractGo
      rw [hc]
      simp only [if_neg hne, hv, if_true]
      exact ⟨_, rfl, rfl⟩
  | cons t ts ih =>
    intro hpre
    have ht := hpre t (by simp)
    have hts : ∀ u ∈ ts, ContentExtractor.stratFails ld url u :=
      fun u hu => hpre u (by simp [hu])
    simp only [List.cons_append]
    rcases ht with ⟨e, he⟩ | hnone | hempty | ⟨c2, hc2, hne2, hv2⟩
    · unfold ContentExtractor.extractGo
      rw [he]
      exact ih (some e) (some e) hts
    · unfold ContentExtractor.extractGo
      rw [hnone]
      exact ih lastErr lastErr2 hts
    · unfold ContentExtractor.extractGo
      rw [hempty]
      simp only [if_pos rfl]
      exact ih lastErr lastErr2 hts
    · unfold ContentExtractor.extractGo
      rw [hc2]
      simp only [if_neg hne2, hv2, if_false]
      exact ih lastErr lastErr2 hts

set_option maxRecDepth 1000000 in
/-- C2 (witness): a failing strategy followed by `goodStrategy`; the
chain returns extraction method `newspaper3k` and is insensitive to the
strategy after the winner and to the recorded error. -/
theorem claim_C2_witness :
    ContentExtractor.extractGo ldEn sideNone sideNone sideNone "http://x.com" "x.com"
        ([raisingStrategy] ++ goodStrategy :: [spareStrategy]) Option.none =
      ContentExtractor.extractGo ldEn sideNone sideNone sideNone "http://x.com" "x.com"
        ([raisingStrategy] ++ goodStrategy :: []) (some "prior") ∧
    ∃ a, ContentExtractor.extractGo ldEn sideNone sideNone sideNone "http://x.com"
        "x.com" ([raisingStrategy] ++ goodStrategy :: [spareStrategy]) Option.none =
        Except.ok a ∧ a.extraction_method = goodStrategy.name :=
  claim_C2_first_success ldEn sideNone sideNone sideNone "http://x.com" "x.com"
    [raisingStrategy] goodStrategy goodText [spareStrategy] [] Option.none
    (some "prior")
    (by
      intro t htm
      rw [List.mem_singleton] at htm
      subst htm
      exact Or.inl ⟨"boom", rfl⟩)
    rfl
    (by decide)
    (by rfl)

/-! ## C1: the claim merge -/

/-- The code's seen-set walk equals the spec's kept-list walk whenever
the seen set holds exactly the normalized texts of the kept claims. -/
theorem mergeClaimsAux_eq_specKeep (cs : List Claim) :
    ∀ (kept : List Claim) (seen : List String),
    (∀ t, t ∈ seen ↔ ∃ k ∈ kept, t = joinWords (pyLower k.claim)) →
    (AnalysisOrchestrator.mergeClaimsAux cs seen).1 = specKeep kept cs := by
  induction cs with
  | nil => intro kept seen hinv; rfl
  | cons c rest ih =>
    intro kept seen hinv
    have hcond :
        (seen.any (fun s => AnalysisOrchestrator.claims_similar
          (joinWords (pyLower c.claim)) s)) =
        (kept.any (fun k => AnalysisOrchestrator.claims_similar
          (joinWords (pyLower c.claim)) (joinWords (pyLower k.claim)))) := by
      cases hb : (kept.any (fun k => AnalysisOrchestrator.claims_similar
          (joinWords (pyLower c.claim)) (joinWords (pyLower k.claim)))) with
      | false =>
        rw [List.any_eq_false] at hb ⊢
        intro t ht
        obtain ⟨k, hk, rfl⟩ := (hinv t).mp ht
        exact hb k hk
      | true =>
        rw [List.any_eq_true] at hb ⊢
        obtain ⟨k, hk, hsim⟩ := hb
        exact ⟨joinWords (pyLower k.claim), (hinv _).mpr ⟨k, hk, rfl⟩, hsim⟩
    unfold AnalysisOrchestrator.mergeClaimsAux specKeep
    dsimp only
    rw [hcond]
    split
    · exact ih kept seen hinv
    · show c :: (AnalysisOrchestrator.mergeClaimsAux rest
        (joinWords (pyLower c.claim) :: seen)).1 = c :: specKeep (kept ++ [c]) rest
      congr 1
      apply ih
      intro t
      simp only [List.mem_cons, List.mem_append, List.mem_nil_iff, or_false]
      constructor
      · rintro (rfl | hts)
        · exact ⟨c, Or.inr rfl, rfl⟩
        · obtain ⟨k, hk, rfl⟩ := (hinv t).mp hts
          exact ⟨k, Or.inl hk, rfl⟩
      · rintro ⟨k, hk | rfl, rfl⟩
        · exact Or.inr ((hinv _).mpr ⟨k, hk, rfl⟩)
        · exact Or.inl rfl

/-- C1: `_merge_claims` concatenates heuristic claims before AI claims,
keeps a claim unless the Jaccard similarity of its normalized word set
with some already-kept claim exceeds 0.6 (first-seen wins), stable-sorts
the survivors by confidence descending, and truncates to 8 — i.e. it
equals the operation the specification describes, for every pair of
input lists. -/
theorem claim_C1_merge_claims (traditional_claims ai_claims : List Claim) :
    AnalysisOrchestrator.merge_claims traditional_claims ai_claims =
      specMergeClaims traditional_claims ai_claims := by
  unfold AnalysisOrchestrator.merge_claims specMergeClaims
  rw [mergeClaimsAux_eq_specKeep (traditional_claims ++ ai_claims) [] [] (by simp)]

/-! ## C7: the red-flag merge -/

/-- The code's seen-set walk of the red-flag merge equals the spec's
kept-list formulation whenever the seen set holds exactly the
normalized descriptions of the kept flags. -/
theorem mergeFlagsAux_eq_specKeepFlags (fs : List RedFlag) :
    ∀ (kept : List RedFlag) (seen : List String),
    (∀ t, t ∈ seen ↔ ∃ k ∈ kept, t = joinWords (pyLower k.description)) →
    (AnalysisOrchestrator.mergeFlagsAux fs seen).1 = specKeepFlags kept fs := by
  induction fs with
  | nil => intro kept seen hinv; rfl
  | cons f rest ih =>
    intro kept seen hinv
    unfold AnalysisOrchestrator.mergeFlagsAux specKeepFlags
    dsimp only
    by_cases hm : joinWords (pyLower f.description) ∈ seen
    · obtain ⟨k, hk, heq⟩ := (hinv _).mp hm
      have hbt : (kept.any (fun k =>
          joinWords (pyLower k.description) == joinWords (pyLower f.description))) =
          true := by
        rw [List.any_eq_true]
        exact ⟨k, hk, beq_iff_eq.mpr heq.symm⟩
      rw [if_pos hm, hbt]
      exact ih kept seen hinv
    · have hb : (kept.any (fun k =>
          joinWords (pyLower k.description) == joinWords (pyLower f.description))) =
          false := by
        rw [List.any_eq_false]
        intro k hk
        rw [Bool.not_eq_true, beq_eq_false_iff_ne]
        intro heq
        exact hm ((hinv _).mpr ⟨k, hk, heq.symm⟩)
      rw [if_neg hm, hb]
      show f :: (AnalysisOrchestrator.mergeFlagsAux rest
        (joinWords (pyLower f.description) :: seen)).1 =
        f :: specKeepFlags (kept ++ [f]) rest
      congr 1
      apply ih
      intro t
      simp only [List.mem_cons, List.mem_append, List.mem_nil_iff, or_false]
      constructor
      · rintro (rfl | hts)
        · exact ⟨f, Or.inr rfl, rfl⟩
        · obtain ⟨k, hk, rfl⟩ := (hinv t).mp hts
          exact ⟨k, Or.inl hk, rfl⟩
      · rintro ⟨k, hk | rfl, rfl⟩
        · exact Or.inr ((hinv _).mpr ⟨k, hk, rfl⟩)
        · exact Or.inl rfl

set_option maxRecDepth 400000 in
/-- C7: `_merge_red_flags` concatenates heuristic flags before AI
flags, drops a flag exactly when its whitespace-normalized lowercased
description equals that of an already-kept flag (first-seen wins),
stable-sorts by (severity rank high=3/medium=2/low=1, confidence)
descending and truncates to 10; and 15 distinct high-severity flags
from each source yield exactly 10 flags, all of severity high. -/
theorem claim_C7_merge_red_flags :
    (∀ traditional_flags ai_flags : List RedFlag,
      AnalysisOrchestrator.merge_red_flags traditional_flags ai_flags =
        specMergeRedFlags traditional_flags ai_flags) ∧
    (AnalysisOrchestrator.merge_red_flags highFlagsHeuristic highFlagsAI).length = 10 ∧
    (∀ f ∈ AnalysisOrchestrator.merge_red_flags highFlagsHeuristic highFlagsAI,
      f.severity = SeverityLevel.high) := by
  refine ⟨?_, by decide, by decide⟩
  intro traditional_flags ai_flags
  unfold AnalysisOrchestrator.merge_red_flags specMergeRedFlags
  rw [mergeFlagsAux_eq_specKeepFlags (traditional_flags ++ ai_flags) [] [] (by simp)]

/-! ## C5: the intra-source dedup boundary -/

/-- `ClaimExtractor._claims_similar` in terms of the intersection and
union cardinalities of the two word sets. -/
theorem claims_similar_CE_of_cards (s1 s2 : String) (i u : ℕ)
    (hI : ((pyWords s1).toFinset ∩ (pyWords s2).toFinset).card = i)
    (hU : ((pyWords s1).toFinset ∪ (pyWords s2).toFinset).card = u) (hu : 0 < u) :
    ClaimExtractor.claims_similar s1 s2 = decide ((i : ℚ) / (u : ℚ) > 7/10) := by
  unfold ClaimExtractor.claims_similar
  dsimp only
  rw [hI, hU, if_pos hu]

/-- A two-claim list passes `_deduplicate_claims` untouched when the
second claim is not similar to the first. -/
theorem dedup_two_keep (c1 c2 : Claim)
    (h : ClaimExtractor.claims_similar (ClaimExtractor.simplifyClaim c2.claim)
      (ClaimExtractor.simplifyClaim c1.claim) = false) :
    ClaimExtractor.deduplicate_claims [c1, c2] = [c1, c2] := by
  simp [ClaimExtractor.deduplicate_claims, ClaimExtractor.dedupAux, h]

/-- The second of two claims is dropped by `_deduplicate_claims` when it
is similar to the first. -/
theorem dedup_two_drop (c1 c2 : Claim)
    (h : ClaimExtractor.claims_similar (ClaimExtractor.simplifyClaim c2.claim)
      (ClaimExtractor.simplifyClaim c1.claim) = true) :
    ClaimExtractor.deduplicate_claims [c1, c2] = [c1] := by
  simp [ClaimExtractor.deduplicate_claims, ClaimExtractor.dedupAux, h]

set_option maxRecDepth 100000 in
/-- C5 (counterexample): a concrete pair whose normalized word sets
share 7 words of a 10-word union (Jaccard exactly 0.7) is NOT merged:
both claims survive `_deduplicate_claims`, because the code's threshold
is strict (`similarity > 0.7`).  This refutes the claim that the second
claim is discarded at exactly 0.7. -/
theorem claim_C5_counterexample :
    ((pyWords (ClaimExtractor.simplifyClaim share7.claim)).toFinset ∩
      (pyWords (ClaimExtractor.simplifyClaim shareBase.claim)).toFinset).card = 7 ∧
    ((pyWords (ClaimExtractor.simplifyClaim share7.claim)).toFinset ∪
      (pyWords (ClaimExtractor.simplifyClaim shareBase.claim)).toFinset).card = 10 ∧
    ClaimExtractor.deduplicate_claims [shareBase, share7] = [shareBase, share7] := by
  decide

/-- C5 (amended): the boundary is strict: a pair sharing exactly 7
words of a 10-word union (Jaccard 0.7) is kept as two distinct claims;
a pair sharing 8 of 10 (Jaccard 0.8 > 0.7) has its second claim
discarded; a pair sharing 6 of 10 (Jaccard 0.6) is kept. -/
theorem claim_C5_amended :
    (∀ c1 c2 : Claim,
      ((pyWords (ClaimExtractor.simplifyClaim c2.claim)).toFinset ∩
        (pyWords (ClaimExtractor.simplifyClaim c1.claim)).toFinset).card = 7 →
      ((pyWords (ClaimExtractor.simplifyClaim c2.claim)).toFinset ∪
        (pyWords (ClaimExtractor.simplifyClaim c1.claim)).toFinset).card = 10 →
      ClaimExtractor.deduplicate_claims [c1, c2] = [c1, c2]) ∧
    (∀ c1 c2 : Claim,
      ((pyWords (ClaimExtractor.simplifyClaim c2.claim)).toFinset ∩
        (pyWords (ClaimExtractor.simplifyClaim c1.claim)).toFinset).card = 8 →
      ((pyWords (ClaimExtractor.simplifyClaim c2.claim)).toFinset ∪
        (pyWords (ClaimExtractor.simplifyClaim c1.claim)).toFinset).card = 10 →
      ClaimExtractor.deduplicate_claims [c1, c2] = [c1]) ∧
    (∀ c1 c2 : Claim,
      ((pyWords (ClaimExtractor.simplifyClaim c2.claim)).toFinset ∩
        (pyWords (ClaimExtractor.simplifyClaim c1.claim)).toFinset).card = 6 →
      ((pyWords (ClaimExtractor.simplifyClaim c2.claim)).toFinset ∪
        (pyWords (ClaimExtractor.simplifyClaim c1.claim)).toFinset).card = 10 →
      ClaimExtractor.deduplicate_claims [c1, c2] = [c1, c2]) := by
  refine ⟨fun c1 c2 hI hU => ?_, fun c1 c2 hI hU => ?_, fun c1 c2 hI hU => ?_⟩
  · exact dedup_two_keep c1 c2 (by
      rw [claims_similar_CE_of_cards _ _ 7 10 hI hU (by norm_num)]; decide)
  · exact dedup_two_drop c1 c2 (by
      rw [claims_similar_CE_of_cards _ _ 8 10 hI hU (by norm_num)]; decide)
  · exact dedup_two_keep c1 c2 (by
      rw [claims_similar_CE_of_cards _ _ 6 10 hI hU (by norm_num)]; decide)

set_option maxRecDepth 100000 in
/-- C5 (witness): the amended theorem applied to concrete pairs with
Jaccard 0.7, 0.8 and 0.6. -/
theorem claim_C5_witness :
    ClaimExtractor.deduplicate_claims [shareBase, share7] = [shareBase, share7] ∧
    ClaimExtractor.deduplicate_claims [nineBase, share8] = [nineBase] ∧
    ClaimExtractor.deduplicate_claims [sevenBase, share6] = [sevenBase, share6] :=
  ⟨claim_C5_amended.1 shareBase share7 (by decide) (by decide),
   claim_C5_amended.2.1 nineBase share8 (by decide) (by decide),
   claim_C5_amended.2.2 sevenBase share6 (by decide) (by decide)⟩

/-! ## C6: merging a list with itself -/

theorem insertBy_length (le : α → α → Bool) (x : α) (l : List α) :
    (insertBy le x l).length = l.length + 1 := by
  induction l with
  | nil => rfl
  | cons y t ih =>
    unfold insertBy
    split
    · rfl
    · simp [ih]

theorem pySorted_length (le : α → α → Bool) (l : List α) :
    (pySorted le l).length = l.length := by
  induction l with
  | nil => rfl
  | cons x t ih =>
    unfold pySorted
    rw [insertBy_length, ih]
    simp

/-- Unfolding equation of the merge walk at a cons cell. -/
theorem mergeClaimsAux_cons (c : Claim) (rest : List Claim) (seen : List String) :
    AnalysisOrchestrator.mergeClaimsAux (c :: rest) seen =
      if (seen.any fun s => AnalysisOrchestrator.claims_similar
          (joinWords (pyLower c.claim)) s) then
        AnalysisOrchestrator.mergeClaimsAux rest seen
      else
        (c :: (AnalysisOrchestrator.mergeClaimsAux rest
          (joinWords (pyLower c.claim) :: seen)).1,
         (AnalysisOrchestrator.mergeClaimsAux rest
          (joinWords (pyLower c.claim) :: seen)).2) := rfl

/-- Processing a concatenation: the second block starts from the seen
set left by the first. -/
theorem mergeClaimsAux_append (xs ys : List Claim) :
    ∀ seen, AnalysisOrchestrator.mergeClaimsAux (xs ++ ys) seen =
      ((AnalysisOrchestrator.mergeClaimsAux xs seen).1 ++
        (AnalysisOrchestrator.mergeClaimsAux ys
          (AnalysisOrchestrator.mergeClaimsAux xs seen).2).1,
       (AnalysisOrchestrator.mergeClaimsAux ys
          (AnalysisOrchestrator.mergeClaimsAux xs seen).2).2) := by
  induction xs with
  | nil =>
    intro seen
    simp [AnalysisOrchestrator.mergeClaimsAux]
  | cons c t ih =>
    intro seen
    rw [List.cons_append, mergeClaimsAux_cons, mergeClaimsAux_cons]
    by_cases hcond : (seen.any fun s => AnalysisOrchestrator.claims_similar
        (joinWords (pyLower c.claim)) s) = true
    · simp only [if_pos hcond]
      exact ih seen
    · simp only [if_neg hcond]
      rw [ih (joinWords (pyLower c.claim) :: seen)]
      simp

/-- A pass over pairwise-dissimilar claims, none similar to anything
already seen, keeps everything and records every normalized text. -/
theorem mergeClaimsAux_keep_all (L : List Claim) :
    ∀ seen,
    (∀ c ∈ L, ∀ t ∈ seen, AnalysisOrchestrator.claims_similar
      (joinWords (pyLower c.claim)) t = false) →
    L.Pairwise (fun c d => AnalysisOrchestrator.claims_similar
      (joinWords (pyLower d.claim)) (joinWords (pyLower c.claim)) = false) →
    AnalysisOrchestrator.mergeClaimsAux L seen =
      (L, (L.map (fun c => joinWords (pyLower c.claim))).reverse ++ seen) := by
  induction L with
  | nil =>
    intro seen _ _
    simp [AnalysisOrchestrator.mergeClaimsAux]
  | cons c t ih =>
    intro seen hseen hpair
    unfold AnalysisOrchestrator.mergeClaimsAux
    dsimp only
    have hcond : (seen.any fun s => AnalysisOrchestrator.claims_similar
        (joinWords (pyLower c.claim)) s) = false := by
      rw [List.any_eq_false]
      intro t2 ht2
      rw [Bool.not_eq_true]
      exact hseen c (by simp) t2 ht2
    rw [hcond]
    rw [ih (joinWords (pyLower c.claim) :: seen) ?h1 (List.pairwise_cons.mp hpair).2]
    · simp [List.reverse_cons, List.append_assoc]
    case h1 =>
      intro d hd s hs
      rcases List.mem_cons.mp hs with rfl | hs2
      · exact (List.pairwise_cons.mp hpair).1 d hd
      · exact hseen d (by simp [hd]) s hs2

/-- A pass over claims each similar to something already seen drops
everything. -/
theorem mergeClaimsAux_drop_all (L : List Claim) :
    ∀ seen,
    (∀ c ∈ L, ∃ t ∈ seen, AnalysisOrchestrator.claims_similar
      (joinWords (pyLower c.claim)) t = true) →
    AnalysisOrchestrator.mergeClaimsAux L seen = ([], seen) := by
  induction L with
  | nil => intro seen _; rfl
  | cons c t ih =>
    intro seen h
    unfold AnalysisOrchestrator.mergeClaimsAux
    dsimp only
    rw [List.any_eq_true.mpr (h c (by simp))]
    exact ih seen (fun d hd => h d (by simp [hd]))

/-- A claim whose normalized text has at least one word is similar to
itself (Jaccard 1 > 0.6). -/
theorem claims_similar_self (s : String) (h : pyWords s ≠ []) :
    AnalysisOrchestrator.claims_similar s s = true := by
  unfold AnalysisOrchestrator.claims_similar
  dsimp only
  rw [Finset.inter_self, Finset.union_self]
  obtain ⟨w, hw⟩ := List.exists_mem_of_ne_nil _ h
  have hpos : 0 < (pyWords s).toFinset.card :=
    Finset.card_pos.mpr ⟨w, List.mem_toFinset.mpr hw⟩
  rw [if_pos hpos, decide_eq_true_eq,
    div_self (by exact_mod_cast Nat.pos_iff_ne_zero.mp hpos)]
  norm_num

set_option maxRecDepth 100000 in
/-- C6 (counterexample): merging the two-claim list
`[claimABC, claimAB]` with itself yields a single claim, not two: the
word sets of `a b c` and `a b` have Jaccard 2/3 > 0.6, so the claims of
the list merge with each other.  This refutes "the result size equals
the size of L" for every L. -/
theorem claim_C6_counterexample :
    (AnalysisOrchestrator.merge_claims [claimABC, claimAB]
      [claimABC, claimAB]).length = 1 ∧
    ([claimABC, claimAB] : List Claim).length = 2 := by
  decide

/-- C6 (amended): merging a list with itself yields `min 8 |L|` claims,
provided the claims of `L` are pairwise non-similar (so none of them
merge with each other) and each has a non-empty normalized word set (a
claim with an empty word set has degenerate Jaccard 0 with everything,
even its own copy); the cap of 8 also bounds the result. -/
theorem claim_C6_amended (L : List Claim)
    (hw : ∀ c ∈ L, pyWords (joinWords (pyLower c.claim)) ≠ [])
    (hp : L.Pairwise (fun c d => AnalysisOrchestrator.claims_similar
      (joinWords (pyLower d.claim)) (joinWords (pyLower c.claim)) = false)) :
    (AnalysisOrchestrator.merge_claims L L).length = min 8 L.length := by
  unfold AnalysisOrchestrator.merge_claims
  rw [List.length_take, pySorted_length]
  congr 1
  rw [mergeClaimsAux_append L L []]
  rw [mergeClaimsAux_keep_all L [] (by simp) hp]
  rw [mergeClaimsAux_drop_all L _ ?hdrop]
  · simp
  case hdrop =>
    intro c hc
    refine ⟨joinWords (pyLower c.claim), ?_, claims_similar_self _ (hw c hc)⟩
    simp only [List.append_nil, List.mem_reverse, List.mem_map]
    exact ⟨c, hc, rfl⟩

set_option maxRecDepth 100000 in
/-- C6 (witness): the amended theorem applied to the two-element list
`[claimABC, claimDEF]` of dissimilar claims: the self-merge has size
`min 8 2 = 2`. -/
theorem claim_C6_witness :
    (AnalysisOrchestrator.merge_claims [claimABC, claimDEF]
      [claimABC, claimDEF]).length =
      min 8 ([claimABC, claimDEF] : List Claim).length :=
  claim_C6_amended [claimABC, claimDEF] (by decide) (by decide)
